import Mathlib

/-!
Verification of the NeuroInsight job-execution subsystem.

Strings from the Python source are embedded as `List Char` so that every
definition is executable by the kernel.  Each definition carries a comment
naming the Python function it embeds.  Filesystem and database effects are
modelled by explicit oracle parameters (e.g. `fileExists`), and symlink-free
path semantics is assumed for `Path.resolve`.
-/

namespace NeuroInsight

/-! ## Parameter sanitiser and command construction
(`backend/execution/celery_tasks.py`, `backend/execution/local_backend.py`) -/

/-- The shell metacharacters stripped by `_sanitize_param`
(`backend/execution/celery_tasks.py`, the Python set `";|&...$(){}!><\n\r"`):
semicolon, pipe, ampersand, backquote (code 96), dollar, parentheses,
open/close brace (codes 123/125), bang, greater, less, newline, carriage
return. -/
def dangerousChars : List Char :=
  [';', '|', '&', Char.ofNat 96, '$', '(', ')', Char.ofNat 123, Char.ofNat 125,
   '!', '>', '<', '\n', '\r']

/-- `_sanitize_param` (`backend/execution/celery_tasks.py`):
`"".join(c for c in value if c not in dangerous)`. -/
def sanitizeParam (value : List Char) : List Char :=
  value.filter (fun c => ¬ c ∈ dangerousChars)

/-- Fueled worker for Python `str.replace`: leftmost, non-overlapping
replacement of every occurrence of `pat` by `rep`.  Each step consumes at
least one character of the remaining string, so fuel `s.length` is enough;
the `0` case is never reached with that fuel. -/
def replaceAllFuel (pat rep : List Char) : Nat → List Char → List Char
  | _, [] => []
  | 0, s => s
  | fuel + 1, c :: rest =>
    if pat.isPrefixOf (c :: rest) ∧ pat ≠ [] then
      rep ++ replaceAllFuel pat rep fuel (List.drop (pat.length - 1) rest)
    else
      c :: replaceAllFuel pat rep fuel rest

/-- Python `s.replace(pat, rep)` for a nonempty pattern (every pattern used
by the command builder is brace-delimited, hence nonempty). -/
def replaceAll (s pat rep : List Char) : List Char :=
  replaceAllFuel pat rep s.length s

/-- One iteration of the substitution loop in `run_docker_job` /
`run_workflow_job` (`celery_tasks.py`) and `_run_in_thread`
(`local_backend.py`):
`command = command.replace(f"{...key...}", v)` then the `$`-form.
On the two Celery paths `v = _sanitize_param(str(value))`; on the in-thread
fallback `v = str(value)` (no sanitiser); `sanitize` selects the path. -/
def substOne (sanitize : Bool) (command key value : List Char) : List Char :=
  let v := if sanitize then sanitizeParam value else value
  let c1 := replaceAll command (Char.ofNat 123 :: key ++ [Char.ofNat 125]) v
  replaceAll c1 ('$' :: Char.ofNat 123 :: key ++ [Char.ofNat 125]) v

/-- The full `for key, value in resolved_params.items():` substitution loop.
`sanitize = true` embeds the Celery task paths (`run_docker_job` lines
392-398, `run_workflow_job` lines 814-821); `sanitize = false` embeds the
in-thread fallback (`local_backend.py` lines 229-234). -/
def buildCommand (sanitize : Bool) (template : List Char)
    (params : List (List Char × List Char)) : List Char :=
  params.foldl (fun cmd kv => substOne sanitize cmd kv.1 kv.2) template

/-! ## Image allow-list (`celery_tasks.py`) -/

/-- `ALLOWED_IMAGE_PREFIXES` (`backend/execution/celery_tasks.py`). -/
def allowedImageBases : List (List Char) :=
  ["freesurfer/freesurfer".data,
   "deepmi/fastsurfer".data,
   "nipreps/fmriprep".data,
   "pennlinc/xcp_d".data,
   "pennbbl/qsiprep".data,
   "pennbbl/qsirecon".data,
   "pennlinc/qsirecon".data,
   "nipy/heudiconv".data,
   "meldproject/meld_graph".data,
   "nipreps/mriqc".data,
   "bids/".data]

/-- `_validate_image` (`celery_tasks.py`):
`image_base = image.split(":")[0].split("@")[0]` followed by
`any(image_base.startswith(prefix) for prefix in ALLOWED_IMAGE_PREFIXES)`.
Taking the characters before the first `:` and then before the first `@`
is exactly `split(":")[0].split("@")[0]`. -/
def validateImage (image : List Char) : Bool :=
  let imageBase := (image.takeWhile (· ≠ ':')).takeWhile (· ≠ '@')
  allowedImageBases.any (fun p => p.isPrefixOf imageBase)

/-! ## Submission validation on the two local execution paths -/

/-- The parts of the serialised `spec_dict` consulted before a container is
started.  `resolvedParams` stands for the output of `_resolve_parameters`
(defaults, resource variables and `input_file` already merged). -/
structure SpecMsg where
  containerImage : List Char
  inputFiles : List (List Char)
  commandTemplate : List Char
  executionMode : List Char
  pluginId : List Char
  resolvedParams : List (List Char × List Char)
deriving DecidableEq

/-- Outcome of the validation-and-command phase of a submission path.
`rejected dbStatus msg` models `_sync_job_to_db(job_id, dbStatus,
error_message=msg)` followed by `raise Reject(..., requeue=False)` —
no container is started.  `launched cmd` models reaching
`client.containers.run(image=..., command=cmd, ...)`. -/
inductive LaunchOutcome
  | rejected (dbStatus errorMessage : List Char)
  | launched (command : Option (List Char))
deriving DecidableEq

/-- The validation prefix of the Celery task `run_docker_job`
(`celery_tasks.py` lines 339-406): empty-image check, `_validate_image`
check, per-input existence check (first missing file rejects), then command
construction.  `fileExists` is the filesystem oracle for `Path(inp).exists()`;
`registryTemplate` models the plugin-registry fallback lookup used when the
spec carries no `command_template` (`none` when the plugin is unknown or the
lookup fails, in which case the template stays empty). -/
def runDockerJobEntry (fileExists : List Char → Bool)
    (registryTemplate : Option (List Char)) (spec : SpecMsg) : LaunchOutcome :=
  if spec.containerImage = [] then
    .rejected "failed".data "No container image specified".data
  else if ¬ validateImage spec.containerImage then
    .rejected "failed".data
      ("Image '".data ++ spec.containerImage ++
       "' is not in the allowed list. Contact admin to add it.".data)
  else
    match spec.inputFiles.find? (fun f => ¬ fileExists f) with
    | some f => .rejected "failed".data ("Input file not found: ".data ++ f)
    | none =>
      let template :=
        if spec.commandTemplate ≠ [] then spec.commandTemplate
        else registryTemplate.getD []
      if template ≠ [] then
        .launched (some (buildCommand true template spec.resolvedParams))
      else if spec.executionMode = "plugin".data then
        .rejected "failed".data
          ("Plugin '".data ++ spec.pluginId ++
           "' has no command_template -- cannot execute".data)
      else
        .launched none

/-- The in-thread fallback `LocalDockerBackend._run_in_thread._execute`
(`local_backend.py` lines 188-256): it marks the job running, pulls the
image if needed, builds the command by raw substitution (no
`_sanitize_param`) and calls `client.containers.run` — with no empty-image
check, no `_validate_image` call and no input-existence check. -/
def runInThread (spec : SpecMsg) : LaunchOutcome :=
  .launched
    (if spec.commandTemplate ≠ [] then
       some (buildCommand false spec.commandTemplate spec.resolvedParams)
     else none)

/-! ## Progress writes of the executor (`celery_tasks.py`) -/

/-- How one attempt of the task body ends: a container exit code observed by
`container.wait()`, or an exception (Docker daemon error, OOM kill, ...)
that triggers the Celery autoretry. -/
inductive AttemptEnd
  | exit (code : Int)
  | exception
deriving DecidableEq

/-- Environment of a single attempt of `run_docker_job`: whether
`client.images.get` finds the image cached (else a pull writes progress 2),
the streamed log chunks, and how the attempt ends. -/
structure AttemptEnv where
  imageCached : Bool
  chunks : List (List Char)
  outcome : AttemptEnd
deriving DecidableEq

/-- The milestone scan for one new log chunk (`run_docker_job` lines
466-486): milestones are visited in list order; the first one whose
percentage exceeds `current` and whose marker matches the accumulated buffer
fires, and the loop breaks (at most one advance per chunk).  `hit marker
buffer` abstracts `re.search(marker, buffer)` with the substring fallback
used on `re.error`. -/
def milestoneHit (hit : List Char → List Char → Bool) (current : Nat)
    (buffer : List Char) :
    List (List Char × Nat × List Char) → Option (Nat × List Char)
  | [] => none
  | (marker, pct, label) :: rest =>
    if current < pct ∧ hit marker buffer then some (pct, label)
    else milestoneHit hit current buffer rest

/-- The log-streaming loop of `run_docker_job` (lines 453-486): each chunk
is appended to `log_buffer`; a fired milestone writes its percentage via
`_update_progress` and becomes the new `current_progress`.  Returns the
sequence of progress values written by the loop. -/
def scanChunks (hit : List Char → List Char → Bool)
    (milestones : List (List Char × Nat × List Char)) :
    Nat → List Char → List (List Char) → List Nat
  | _, _, [] => []
  | current, buffer, chunk :: rest =>
    let buffer' := buffer ++ chunk
    match milestoneHit hit current buffer' milestones with
    | some (pct, _) => pct :: scanChunks hit milestones pct buffer' rest
    | none => scanChunks hit milestones current buffer' rest

/-- The Python substring test `marker in log_buffer`, used by the milestone
loop as fallback when the marker is not a valid regular expression (and
coinciding with `re.search` for markers without regex metacharacters). -/
def substringHit (marker buffer : List Char) : Bool :=
  buffer.tails.any (fun t => marker.isPrefixOf t)

/-- The terminal progress write of an attempt: `run_docker_job` writes
`progress=100` only when `container.wait()` reports exit code 0 (line 513);
a non-zero exit and the retry/failure syncs (lines 533-562) carry no
`progress` kwarg, and an exception writes nothing further. -/
def finalWrite : AttemptEnd → List Nat
  | .exit code => if code = 0 then [100] else []
  | .exception => []

/-- The progress values written to the job row by one attempt of
`run_docker_job`, in order: 1 at "Queued" (line 333), 2 when the image must
be pulled (line 370), 3 at "Starting container" (line 427), the milestone
writes of the streaming loop (initial `current_progress = 3`, line 449), and
the terminal write.  An exception cuts the sequence at a prefix of this
list. -/
def attemptProgressWrites (hit : List Char → List Char → Bool)
    (milestones : List (List Char × Nat × List Char)) (env : AttemptEnv) :
    List Nat :=
  1 :: ((if env.imageCached then [] else [2]) ++
    ((3 :: scanChunks hit milestones 3 [] env.chunks) ++ finalWrite env.outcome))

/-- The progress values written over a job's lifetime under Celery's
`autoretry_for=(Exception,)`: every retried attempt re-executes the whole
task body (so line 333 writes progress 1 again at the start of each
attempt). -/
def jobProgressWrites (hit : List Char → List Char → Bool)
    (milestones : List (List Char × Nat × List Char))
    (attempts : List AttemptEnv) : List Nat :=
  (attempts.map (attemptProgressWrites hit milestones)).flatten

/-! ## Cancellation (`local_backend.py`) -/

inductive JobStatus
  | pending
  | running
  | completed
  | failed
  | cancelled
deriving DecidableEq

/-- `Job.is_terminal` (`backend/models/job.py`). -/
def isTerminal : JobStatus → Bool
  | .completed | .failed | .cancelled => true
  | _ => false

/-- One entry of `LocalDockerBackend._jobs` (the in-memory tracking dict),
restricted to the fields `cancel_job` reads or writes. -/
structure MemJob where
  status : JobStatus
  containerId : Option (List Char)
  celeryTaskId : Option (List Char)
deriving DecidableEq

/-- The state visible to `cancel_job` for one job: its in-memory tracking
entry (if any) and its database row's status (if a row exists). -/
structure CancelState where
  mem : Option MemJob
  dbRow : Option JobStatus
deriving DecidableEq

/-- `LocalDockerBackend.cancel_job` (`local_backend.py` lines 418-480).
`none` models `JobNotFoundError`.  When the job is not in `_jobs`, the DB
row is consulted: a terminal row returns `false`, otherwise
`mark_cancelled` commits and returns `true`.  When the job is in `_jobs`,
the container stop and Celery revoke are attempted (external, best-effort),
the in-memory status becomes cancelled, `_sync_job_to_db(job_id,
"cancelled", ...)` sets the row status unconditionally, and the call returns
`true`.  Database writes are modelled on their success path. -/
def cancelJob (st : CancelState) : Option (CancelState × Bool) :=
  match st.mem with
  | none =>
    match st.dbRow with
    | none => none
    | some s =>
      if isTerminal s then some (st, false)
      else some ({ st with dbRow := some .cancelled }, true)
  | some m =>
    some ({ mem := some { m with status := .cancelled },
            dbRow := st.dbRow.map (fun _ => JobStatus.cancelled) }, true)

/-! ## Workflow step input chaining (`run_workflow_job`, `celery_tasks.py`) -/

/-- `run_workflow_job` lines 864-871: after a step succeeds,
`step_output_dirs = [d for d in native_dir.iterdir() if d.is_dir()]` — every
directory currently under `native/`, not a before/after diff — and
`current_input_files` becomes that list when it is nonempty. -/
def nextStepInputs (nativeDirs current : List (List Char)) : List (List Char) :=
  if nativeDirs ≠ [] then nativeDirs else current

/-- The inputs received by step `i` (0-indexed) of a workflow run.
`native/` starts empty (created fresh at line 720); `created.get! j` is the
set of directories step `j` adds under `native/` (steps are assumed not to
remove directories), so the listing after step `j` is the concatenation of
the first `j+1` entries of `created`. -/
def stepInputs (orig : List (List Char))
    (created : List (List (List Char))) : Nat → List (List Char)
  | 0 => orig
  | i + 1 => nextStepInputs ((created.take (i + 1)).flatten) (stepInputs orig created i)

/-! ## Registry lockfile (`backend/core/plugin_registry.py`)

The section is parametric in a type `Y` of raw YAML documents and a function
`hash : Y → List Char` modelling the fixed pure computation
`hashlib.sha256(json.dumps(raw_yaml, sort_keys=True, default=str)
.encode()).hexdigest()[:16]` used identically by `generate_lockfile` and
`verify_lockfile`. -/

/-- First-match association lookup, modelling Python `dict.get` on the
id-keyed maps `self.plugins` / `self.workflows`. -/
def assocFind {α : Type} (k : List Char) : List (List Char × α) → Option α
  | [] => none
  | (k', v) :: rest => if k = k' then some v else assocFind k rest

/-- The fields of `PluginDefinition` consulted by lockfile operations. -/
structure RegPlugin (Y : Type) where
  version : List Char
  containerImage : List Char
  rawYaml : Y
deriving DecidableEq

/-- The fields of `WorkflowDefinition` consulted by lockfile operations
(`stepUses` lists `s.uses` over `w.steps`). -/
structure RegWorkflow (Y : Type) where
  version : List Char
  stepUses : List (List Char)
  rawYaml : Y
deriving DecidableEq

/-- `PluginWorkflowRegistry`: id-keyed maps of plugins and workflows.
Python dict keys are unique; theorems about lookups assume `Nodup` keys. -/
structure Registry (Y : Type) where
  plugins : List (List Char × RegPlugin Y)
  workflows : List (List Char × RegWorkflow Y)
deriving DecidableEq

/-- One `lockfile["plugins"][pid]` entry written by `generate_lockfile`. -/
structure LockPluginEntry where
  version : List Char
  containerImage : List Char
  contentHash : List Char
deriving DecidableEq

/-- One `lockfile["workflows"][wid]` entry written by `generate_lockfile`. -/
structure LockWorkflowEntry where
  version : List Char
  stepUses : List (List Char)
  contentHash : List Char
deriving DecidableEq

structure Lockfile where
  generatedAt : List Char
  plugins : List (List Char × LockPluginEntry)
  workflows : List (List Char × LockWorkflowEntry)
deriving DecidableEq

/-- Insertion step of the sort modelling `sorted(self.plugins.items())`. -/
def insertSorted {α : Type} (le : α → α → Bool) (x : α) : List α → List α
  | [] => [x]
  | y :: ys => if le x y then x :: y :: ys else y :: insertSorted le x ys

/-- Insertion sort; only the permutation property matters for verification. -/
def sortByLe {α : Type} (le : α → α → Bool) (l : List α) : List α :=
  l.foldr (insertSorted le) []

/-- Lexicographic key order on char codes, for `sorted(... .items())`. -/
def keyLe {α : Type} (a b : List Char × α) : Bool :=
  decide (a.1.map Char.toNat ≤ b.1.map Char.toNat)

/-- `PluginWorkflowRegistry.generate_lockfile` (lines 326-358): records
`generated_at` plus, for each plugin and workflow in key order, its version,
image / step plugins, and the 16-hex-char content hash of its canonicalised
raw YAML. -/
def generateLockfile {Y : Type} (hash : Y → List Char) (now : List Char)
    (reg : Registry Y) : Lockfile :=
  { generatedAt := now,
    plugins := (sortByLe keyLe reg.plugins).map (fun kv =>
      (kv.1, { version := kv.2.version,
               containerImage := kv.2.containerImage,
               contentHash := hash kv.2.rawYaml })),
    workflows := (sortByLe keyLe reg.workflows).map (fun kv =>
      (kv.1, { version := kv.2.version,
               stepUses := kv.2.stepUses,
               contentHash := hash kv.2.rawYaml })) }

inductive Issue
  | missing
  | versionChanged
  | contentChanged
deriving DecidableEq

/-- One element of the report's `plugins`/`workflows` lists; `expected` and
`actual` carry the `expected`/`actual` (or `expected_hash`/`actual_hash`)
fields when the issue provides them. -/
structure ReportEntry where
  id : List Char
  issue : Issue
  expected : Option (List Char)
  actual : Option (List Char)
deriving DecidableEq

inductive VerifyStatus
  | ok
  | mismatch
deriving DecidableEq

structure Report where
  plugins : List ReportEntry
  workflows : List ReportEntry
  status : VerifyStatus
deriving DecidableEq

/-- The per-plugin check of `verify_lockfile` (lines 370-393): missing
id, then version comparison, then recomputed content hash comparison. -/
def pluginCheck {Y : Type} (hash : Y → List Char) (reg : Registry Y)
    (pid : List Char) (info : LockPluginEntry) : Option ReportEntry :=
  match assocFind pid reg.plugins with
  | none => some { id := pid, issue := .missing, expected := none, actual := none }
  | some p =>
    if p.version ≠ info.version then
      some { id := pid, issue := .versionChanged,
             expected := some info.version, actual := some p.version }
    else if hash p.rawYaml ≠ info.contentHash then
      some { id := pid, issue := .contentChanged,
             expected := some info.contentHash, actual := some (hash p.rawYaml) }
    else none

/-- The per-workflow check of `verify_lockfile` (lines 395-407): missing
id, then version comparison — the workflow branch has no content-hash
comparison. -/
def workflowCheck {Y : Type} (reg : Registry Y)
    (wid : List Char) (info : LockWorkflowEntry) : Option ReportEntry :=
  match assocFind wid reg.workflows with
  | none => some { id := wid, issue := .missing, expected := none, actual := none }
  | some w =>
    if w.version ≠ info.version then
      some { id := wid, issue := .versionChanged,
             expected := some info.version, actual := some w.version }
    else none

/-- `PluginWorkflowRegistry.verify_lockfile` (lines 360-409).  The source
initialises `status = "ok"` and sets it to `"mismatch"` each time an entry
is appended, so the final status is `mismatch` exactly when some entry was
produced. -/
def verifyLockfile {Y : Type} (hash : Y → List Char) (reg : Registry Y)
    (lockfile : Lockfile) : Report :=
  let ps := lockfile.plugins.filterMap (fun kv => pluginCheck hash reg kv.1 kv.2)
  let ws := lockfile.workflows.filterMap (fun kv => workflowCheck reg kv.1 kv.2)
  { plugins := ps, workflows := ws,
    status := if ps = [] ∧ ws = [] then .ok else .mismatch }

/-! ## Results download path safety (`backend/routes/results.py`) -/

/-- A Python `pathlib` path as parsed from a request string: absolute flag
plus components (components contain no separator; `pathlib` drops empty
components at parse time). -/
structure PyPath where
  absolute : Bool
  comps : List (List Char)
deriving DecidableEq

/-- `output_dir / file_path` in `pathlib`: an absolute right operand
replaces the left operand entirely. -/
def joinPath (root : List (List Char)) (fp : PyPath) : List (List Char) :=
  if fp.absolute then fp.comps else root ++ fp.comps

/-- `Path.resolve()` on a symlink-free filesystem: drop `.` components and
let `..` remove the previous component (at the filesystem root, `..` is a
no-op, matching `dropLast [] = []`).  The argument lists the components of
an absolute path. -/
def normalizeComps (comps : List (List Char)) : List (List Char) :=
  comps.foldl (fun acc c =>
    if c = ".".data then acc
    else if c = "..".data then acc.dropLast
    else acc ++ [c]) []

inductive DownloadResult
  | traversal400
  | notFound404
  | notAFile400
  | served (path : List (List Char))
deriving DecidableEq

/-- `download_file` (`routes/results.py` lines 258-299):
`target = (output_dir / file_path).resolve()`, then
`target.relative_to(output_dir.resolve())` — which succeeds exactly when the
resolved root is a component-wise prefix of the resolved target — guards a
400 "path traversal" rejection, followed by existence and is-file checks
before the file is served.  `fsExists`/`fsIsFile` are filesystem oracles. -/
def downloadFile (fsExists fsIsFile : List (List Char) → Bool)
    (root : List (List Char)) (fp : PyPath) : DownloadResult :=
  let rootR := normalizeComps root
  let target := normalizeComps (joinPath root fp)
  if ¬ rootR.isPrefixOf target then .traversal400
  else if ¬ fsExists target then .notFound404
  else if ¬ fsIsFile target then .notAFile400
  else .served target

/-- `str(rel)` for a relative path: components joined with `/`. -/
def relString (comps : List (List Char)) : List Char :=
  List.intercalate ['/'] comps

/-- `list_job_files` (`routes/results.py` lines 79-110): walk the output
tree (`entries` are the `rglob("*")` results as relative component paths
with an is-file flag), keep files whose relative string does not start with
`_inputs`, and report each one; the reported path designates
`output_dir / rel`, returned here as absolute components. -/
def listFiles (root : List (List Char))
    (entries : List (List (List Char) × Bool)) : List (List (List Char)) :=
  (entries.filter (fun e =>
      e.2 && ¬ ("_inputs".data.isPrefixOf (relString e.1)))).map
    (fun e => root ++ e.1)

/-! ## Best-effort DB synchronisation (`celery_tasks.py`) -/

/-- The job-row fields `_sync_job_to_db` / `_update_progress` touch. -/
structure JobRow where
  status : List Char
  startedAt : Option Nat
  completedAt : Option Nat
  exitCode : Option Int
  errorMessage : Option (List Char)
  backendJobId : Option (List Char)
  progress : Nat
  currentPhase : Option (List Char)
deriving DecidableEq

/-- The keyword arguments of `_sync_job_to_db`; `none` means the kwarg was
not passed, so the column is left untouched. -/
structure SyncKwargs where
  startedAt : Option Nat := none
  completedAt : Option Nat := none
  exitCode : Option Int := none
  errorMessage : Option (List Char) := none
  backendJobId : Option (List Char) := none
  progress : Option Nat := none
  currentPhase : Option (List Char) := none
deriving DecidableEq

/-- The field assignments of `_sync_job_to_db` (lines 79-94): `status` is
always assigned; each kwarg overwrites its column only when present. -/
def applySync (row : JobRow) (status : List Char) (kw : SyncKwargs) : JobRow :=
  { row with
    status := status,
    startedAt := kw.startedAt.or row.startedAt,
    completedAt := kw.completedAt.or row.completedAt,
    exitCode := kw.exitCode.or row.exitCode,
    errorMessage := kw.errorMessage.or row.errorMessage,
    backendJobId := kw.backendJobId.or row.backendJobId,
    progress := kw.progress.getD row.progress,
    currentPhase := kw.currentPhase.or row.currentPhase }

/-- The body of the `try:` block of `_sync_job_to_db` (lines 69-97):
`fetch` models the session/query step (it may raise, or find no row —
"Job not found" logs and returns), `commitOk` models whether
`db.commit()` raises.  The result is the committed row, `none` when no row
was updated. -/
def syncJobBody (fetch : Except (List Char) (Option JobRow)) (commitOk : Bool)
    (status : List Char) (kw : SyncKwargs) : Except (List Char) (Option JobRow) := do
  let row? ← fetch
  match row? with
  | none => pure none
  | some row =>
    if commitOk then pure (some (applySync row status kw))
    else Except.error "commit failed".data

/-- `_sync_job_to_db` (lines 63-99): the whole body sits in
`try: ... except Exception as e: logger.error(...)` — every exception is
caught and logged, nothing propagates to the caller. -/
def syncJobToDb (fetch : Except (List Char) (Option JobRow)) (commitOk : Bool)
    (status : List Char) (kw : SyncKwargs) : Except (List Char) (Option JobRow) :=
  match syncJobBody fetch commitOk status kw with
  | .ok r => .ok r
  | .error _ => .ok none

/-- The body of the `try:` block of `_update_progress` (lines 104-114):
set `progress`, set `current_phase` only when the label is nonempty, commit;
a missing row is skipped silently (`if job:` has no else branch). -/
def updateProgressBody (fetch : Except (List Char) (Option JobRow))
    (commitOk : Bool) (progress : Nat) (phaseLabel : List Char) :
    Except (List Char) (Option JobRow) := do
  let row? ← fetch
  match row? with
  | none => pure none
  | some row =>
    let row' := { row with
      progress := progress,
      currentPhase := if phaseLabel ≠ [] then some phaseLabel else row.currentPhase }
    if commitOk then pure (some row') else Except.error "commit failed".data

/-- `_update_progress` (lines 102-116): same try/except-all shape as
`_sync_job_to_db`. -/
def updateProgress (fetch : Except (List Char) (Option JobRow))
    (commitOk : Bool) (progress : Nat) (phaseLabel : List Char) :
    Except (List Char) (Option JobRow) :=
  match updateProgressBody fetch commitOk progress phaseLabel with
  | .ok r => .ok r
  | .error _ => .ok none

/-! ## Helper lemmas -/

theorem sanitizeParam_no_dangerous (v : List Char) (c : Char)
    (hc : c ∈ sanitizeParam v) : c ∉ dangerousChars := by
  simp only [sanitizeParam, List.mem_filter, decide_eq_true_eq] at hc
  exact hc.2

theorem replaceAllFuel_subset (pat rep : List Char) :
    ∀ (fuel : Nat) (s : List Char) (c : Char),
      c ∈ replaceAllFuel pat rep fuel s → c ∈ s ∨ c ∈ rep := by
  intro fuel
  induction fuel with
  | zero =>
    intro s c hc
    cases s with
    | nil => simp [replaceAllFuel] at hc
    | cons a rest => exact Or.inl hc
  | succ n ih =>
    intro s c hc
    cases s with
    | nil => simp [replaceAllFuel] at hc
    | cons a rest =>
      rw [replaceAllFuel] at hc
      by_cases h : pat.isPrefixOf (a :: rest) ∧ pat ≠ []
      · rw [if_pos h] at hc
        rcases List.mem_append.mp hc with h1 | h2
        · exact Or.inr h1
        · rcases ih _ c h2 with h3 | h4
          · exact Or.inl (List.mem_cons_of_mem _ (List.mem_of_mem_drop h3))
          · exact Or.inr h4
      · rw [if_neg h] at hc
        rcases List.mem_cons.mp hc with h1 | h2
        · exact Or.inl (h1 ▸ List.mem_cons_self _ _)
        · rcases ih _ c h2 with h3 | h4
          · exact Or.inl (List.mem_cons_of_mem _ h3)
          · exact Or.inr h4

theorem replaceAll_subset (s pat rep : List Char) (c : Char)
    (hc : c ∈ replaceAll s pat rep) : c ∈ s ∨ c ∈ rep :=
  replaceAllFuel_subset pat rep s.length s c hc

theorem substOne_sanitized_subset (command key value : List Char) (c : Char)
    (hc : c ∈ substOne true command key value) :
    c ∈ command ∨ c ∉ dangerousChars := by
  unfold substOne at hc
  simp only [if_pos rfl] at hc
  rcases replaceAll_subset _ _ _ c hc with h1 | h2
  · rcases replaceAll_subset _ _ _ c h1 with h3 | h4
    · exact Or.inl h3
    · exact Or.inr (sanitizeParam_no_dangerous _ _ h4)
  · exact Or.inr (sanitizeParam_no_dangerous _ _ h2)

theorem buildCommand_sanitized_subset (template : List Char)
    (params : List (List Char × List Char)) (c : Char)
    (hc : c ∈ buildCommand true template params) :
    c ∈ template ∨ c ∉ dangerousChars := by
  induction params generalizing template with
  | nil => exact Or.inl hc
  | cons kv rest ih =>
    rcases ih (substOne true template kv.1 kv.2) hc with h1 | h2
    · exact substOne_sanitized_subset _ _ _ _ h1
    · exact Or.inr h2

/-! ## C5 -/

/-- C5: for any input string, the output of the parameter sanitiser contains
none of the dangerous shell metacharacters, and it is exactly the
subsequence of the input with those characters removed (a sublist keeping
every non-dangerous character). -/
theorem C5_sanitizer_output (s : List Char) :
    (∀ c ∈ sanitizeParam s, c ∉ dangerousChars) ∧
    (sanitizeParam s).Sublist s ∧
    (∀ c ∈ s, c ∉ dangerousChars → c ∈ sanitizeParam s) := by
  refine ⟨fun c hc => sanitizeParam_no_dangerous s c hc, List.filter_sublist s, ?_⟩
  intro c hc hnd
  simp only [sanitizeParam, List.mem_filter, decide_eq_true_eq]
  exact ⟨hc, hnd⟩

/-- Witness for C5 at the concrete input `"a;b"`. -/
theorem C5_sanitizer_output_witness :
    ';' ∉ sanitizeParam "a;b".data ∧ (sanitizeParam "a;b".data).Sublist "a;b".data :=
  ⟨fun h => ((C5_sanitizer_output "a;b".data).1 ';' h) (by decide),
   (C5_sanitizer_output "a;b".data).2.1⟩

/-! ## C1 -/

/-- C1 counterexample: on the in-thread fallback
(`LocalDockerBackend._run_in_thread`), a parameter value introduces the
dangerous character `;` into the built command even though it does not occur
in the template, so not every substituted value passes through the
sanitiser. -/
theorem C1_thread_substitution_cex :
    ';' ∈ dangerousChars ∧
    ';' ∉ "run --in /data/inputs/T1w.nii.gz --threads {threads}".data ∧
    ';' ∈ buildCommand false
        "run --in /data/inputs/T1w.nii.gz --threads {threads}".data
        [("threads".data, "; rm -rf /".data)] := by
  refine ⟨by decide, by decide, by decide⟩

/-- C1 (amended): on the two Celery task paths (`run_docker_job`,
`run_workflow_job`) every substituted value is sanitised first, so a
parameter value can only contribute non-dangerous characters to the built
command; the in-thread fallback substitutes values without the sanitiser,
and a parameter value can introduce dangerous characters there. -/
theorem C1_substitution_sanitisation :
    (∀ (template : List Char) (params : List (List Char × List Char)) (c : Char),
       c ∈ buildCommand true template params → c ∈ template ∨ c ∉ dangerousChars) ∧
    (∃ (template : List Char) (params : List (List Char × List Char)) (c : Char),
       c ∈ dangerousChars ∧ c ∉ template ∧ c ∈ buildCommand false template params) := by
  constructor
  · exact fun template params c hc => buildCommand_sanitized_subset template params c hc
  · exact ⟨"echo {x}".data, [("x".data, "a|b".data)], '|', by decide, by decide, by decide⟩

/-- Witness for C1 at a concrete Celery-path substitution: the dangerous
`;` of the parameter value never reaches the built command. -/
theorem C1_substitution_sanitisation_witness :
    ';' ∉ buildCommand true "run --threads {threads}".data
        [("threads".data, "; rm -rf /".data)] := by
  intro h
  rcases C1_substitution_sanitisation.1 _ _ ';' h with h1 | h2
  · exact absurd h1 (by decide)
  · exact h2 (by decide)

/-! ## C2 -/

/-- C2 counterexample: the in-thread fallback launches a container for an
image whose base matches no allow-list entry (`_run_in_thread` never calls
`_validate_image`), so the disallowed submission does not fail on every
execution path. -/
theorem C2_thread_launches_disallowed_cex :
    validateImage "evil.io/miner:latest".data = false ∧
    runInThread
      { containerImage := "evil.io/miner:latest".data,
        inputFiles := ["/tmp/T1.nii.gz".data],
        commandTemplate := [],
        executionMode := "plugin".data,
        pluginId := "miner".data,
        resolvedParams := [] } = .launched none :=
  ⟨by decide, rfl⟩

/-- C2 (amended): on the queued task path (`run_docker_job`) a nonempty
image whose base matches no allow-list entry makes the job fail with the
validation error and no container is launched, but the in-thread fallback
performs no image validation and always reaches the container launch. -/
theorem C2_image_allowlist_enforcement :
    (∀ (fileExists : List Char → Bool) (registryTemplate : Option (List Char))
       (spec : SpecMsg),
       spec.containerImage ≠ [] → validateImage spec.containerImage = false →
       runDockerJobEntry fileExists registryTemplate spec =
         .rejected "failed".data
           ("Image '".data ++ spec.containerImage ++
            "' is not in the allowed list. Contact admin to add it.".data)) ∧
    (∀ spec : SpecMsg, ∃ cmd, runInThread spec = .launched cmd) := by
  constructor
  · intro fe rt spec h1 h2
    unfold runDockerJobEntry
    rw [if_neg h1, if_pos]
    rw [h2]
    simp
  · intro spec
    exact ⟨_, rfl⟩

/-- Witness for C2 at the disallowed image `evil.io/miner:latest` on the
queued task path. -/
theorem C2_image_allowlist_enforcement_witness :
    runDockerJobEntry (fun _ => true) none
      { containerImage := "evil.io/miner:latest".data,
        inputFiles := [],
        commandTemplate := [],
        executionMode := "plugin".data,
        pluginId := "miner".data,
        resolvedParams := [] } =
      .rejected "failed".data
        ("Image '".data ++ "evil.io/miner:latest".data ++
         "' is not in the allowed list. Contact admin to add it.".data) :=
  C2_image_allowlist_enforcement.1 _ _ _ (by decide) (by decide)

/-! ## C3 -/

theorem milestoneHit_some (hit : List Char → List Char → Bool) (current : Nat)
    (buffer : List Char) :
    ∀ (ms : List (List Char × Nat × List Char)) (pct : Nat) (label : List Char),
      milestoneHit hit current buffer ms = some (pct, label) →
      current < pct ∧ ∃ marker, (marker, pct, label) ∈ ms := by
  intro ms
  induction ms with
  | nil => intro pct label h; simp [milestoneHit] at h
  | cons m rest ih =>
    intro pct label h
    obtain ⟨marker, p, lab⟩ := m
    rw [milestoneHit] at h
    by_cases hcond : current < p ∧ hit marker buffer
    · rw [if_pos hcond] at h
      simp only [Option.some.injEq, Prod.mk.injEq] at h
      obtain ⟨rfl, rfl⟩ := h
      exact ⟨hcond.1, marker, List.mem_cons_self _ _⟩
    · rw [if_neg hcond] at h
      obtain ⟨hlt, mk, hm⟩ := ih pct label h
      exact ⟨hlt, mk, List.mem_cons_of_mem _ hm⟩

theorem scanChunks_facts (hit : List Char → List Char → Bool)
    (milestones : List (List Char × Nat × List Char))
    (hcap : ∀ m ∈ milestones, m.2.1 ≤ 100) :
    ∀ (chunks : List (List Char)) (current : Nat) (buffer : List Char),
      (∀ x ∈ scanChunks hit milestones current buffer chunks,
         current < x ∧ x ≤ 100) ∧
      List.Pairwise (· < ·) (scanChunks hit milestones current buffer chunks) := by
  intro chunks
  induction chunks with
  | nil =>
    intro current buffer
    refine ⟨fun x hx => ?_, ?_⟩
    · simp [scanChunks] at hx
    · simp [scanChunks]
  | cons chunk rest ih =>
    intro current buffer
    rw [scanChunks]
    cases hm : milestoneHit hit current (buffer ++ chunk) milestones with
    | none => exact ih current (buffer ++ chunk)
    | some pl =>
      obtain ⟨pct, label⟩ := pl
      obtain ⟨hlt, marker, hmem⟩ :=
        milestoneHit_some hit current (buffer ++ chunk) milestones pct label hm
      have hle : pct ≤ 100 := hcap (marker, pct, label) hmem
      obtain ⟨ihAll, ihPW⟩ := ih pct (buffer ++ chunk)
      refine ⟨fun x hx => ?_, ?_⟩
      · rcases List.mem_cons.mp hx with rfl | hx'
        · exact ⟨hlt, hle⟩
        · obtain ⟨h1, h2⟩ := ihAll x hx'
          exact ⟨lt_trans hlt h1, h2⟩
      · exact List.pairwise_cons.mpr ⟨fun x hx => (ihAll x hx).1, ihPW⟩

/-- C3 counterexample: under Celery's `autoretry_for`, a retried attempt
restarts the task body, and line 333 writes `progress = 1` again — lower
than the milestone value 50 persisted by the first attempt — so the
persisted progress is not non-decreasing over the job's lifetime. -/
theorem C3_progress_monotonic_cex :
    ¬ List.Pairwise (fun a b => a ≤ b)
        (jobProgressWrites substringHit
          [("Processing".data, 50, "Processing".data)]
          [{ imageCached := true,
             chunks := ["Starting Processing chunk".data],
             outcome := .exception },
           { imageCached := true, chunks := [], outcome := .exit 1 }]) := by
  decide

theorem pairwise_le_of_const :
    ∀ (F : List Nat), (∀ x ∈ F, x = 100) → List.Pairwise (· ≤ ·) F := by
  intro F
  induction F with
  | nil => intro _; exact List.Pairwise.nil
  | cons a t ih =>
    intro hF
    refine List.Pairwise.cons (fun b hb => ?_)
      (ih (fun x hx => hF x (List.mem_cons_of_mem _ hx)))
    rw [hF a (List.mem_cons_self _ _), hF b (List.mem_cons_of_mem _ hb)]

/-- The shape of one attempt's write list: `1`, an optional `2`, `3`, the
strictly increasing milestone writes bounded by 100, then an optional
final `100`. -/
theorem pairwise_writes_shape (S F A : List Nat)
    (hS_all : ∀ x ∈ S, 3 < x ∧ x ≤ 100)
    (hS_pw : List.Pairwise (· < ·) S)
    (hF : ∀ x ∈ F, x = 100)
    (hA : A = [] ∨ A = [2]) :
    List.Pairwise (· ≤ ·) (1 :: (A ++ ((3 :: S) ++ F))) := by
  have hM_pw : List.Pairwise (· ≤ ·) ((3 :: S) ++ F) := by
    rw [List.pairwise_append]
    refine ⟨List.Pairwise.cons (fun y hy => le_of_lt (hS_all y hy).1)
              (hS_pw.imp (fun h => le_of_lt h)), pairwise_le_of_const F hF, ?_⟩
    intro a ha b hb
    rw [hF b hb]
    rcases List.mem_cons.mp ha with rfl | haS
    · omega
    · exact (hS_all a haS).2
  have hM_ge2 : ∀ y ∈ (3 :: S) ++ F, 2 ≤ y := by
    intro y hy
    rcases List.mem_append.mp hy with hyM | hyF
    · rcases List.mem_cons.mp hyM with rfl | hyS
      · omega
      · have := (hS_all y hyS).1; omega
    · rw [hF y hyF]; omega
  have hM_ge1 : ∀ y ∈ (3 :: S) ++ F, 1 ≤ y :=
    fun y hy => le_trans (by omega) (hM_ge2 y hy)
  rcases hA with rfl | rfl
  · exact List.Pairwise.cons hM_ge1 hM_pw
  · refine List.Pairwise.cons (fun b hb => ?_) (List.Pairwise.cons hM_ge2 hM_pw)
    rcases List.mem_cons.mp hb with rfl | hb'
    · omega
    · exact le_trans (by omega) (hM_ge2 b hb')

/-- C3 (amended): within a single attempt of `run_docker_job` every
progress write is greater than or equal to every earlier write of that
attempt (milestones only fire above the current progress, capped by 100
before the final write), but a retried attempt restarts the sequence at
progress 1, which may undercut values written by the previous attempt. -/
theorem C3_attempt_progress_monotone (hit : List Char → List Char → Bool)
    (milestones : List (List Char × Nat × List Char)) (env : AttemptEnv)
    (hcap : ∀ m ∈ milestones, m.2.1 ≤ 100) :
    List.Pairwise (· ≤ ·) (attemptProgressWrites hit milestones env) := by
  obtain ⟨hAll, hPW⟩ := scanChunks_facts hit milestones hcap env.chunks 3 []
  have hF : ∀ x ∈ finalWrite env.outcome, x = 100 := by
    cases env.outcome with
    | exit code =>
      by_cases hc : code = 0
      · simp [finalWrite, hc]
      · simp [finalWrite, hc]
    | exception => simp [finalWrite]
  have hA : (if env.imageCached then ([] : List Nat) else [2]) = [] ∨
      (if env.imageCached then ([] : List Nat) else [2]) = [2] := by
    by_cases h : env.imageCached <;> simp [h]
  unfold attemptProgressWrites
  exact pairwise_writes_shape _ _ _ hAll hPW hF hA

/-- Witness for C3 at a concrete attempt with two FreeSurfer milestones. -/
theorem C3_attempt_progress_monotone_witness :
    List.Pairwise (· ≤ ·)
      (attemptProgressWrites substringHit
        [("MotionCorrect".data, 5, "Motion correction".data),
         ("SkullStripping".data, 14, "Skull stripping".data)]
        { imageCached := false,
          chunks := ["MotionCorrect start".data, "SkullStripping start".data],
          outcome := .exit 0 }) :=
  C3_attempt_progress_monotone _ _ _ (by decide)

/-! ## C6 -/

/-- C6 counterexample: while the job is still in the backend's in-memory
tracking dict, `cancel_job` takes the tracked-job branch and returns `True`
unconditionally — also on a second call after a successful cancel — so the
second call does not return `false`. -/
theorem C6_cancel_second_true_cex :
    cancelJob
      { mem := some { status := .running,
                      containerId := some "abc123def456".data,
                      celeryTaskId := none },
        dbRow := some .running } =
      some ({ mem := some { status := .cancelled,
                            containerId := some "abc123def456".data,
                            celeryTaskId := none },
              dbRow := some .cancelled }, true) ∧
    cancelJob
      { mem := some { status := .cancelled,
                      containerId := some "abc123def456".data,
                      celeryTaskId := none },
        dbRow := some .cancelled } =
      some ({ mem := some { status := .cancelled,
                            containerId := some "abc123def456".data,
                            celeryTaskId := none },
              dbRow := some .cancelled }, true) :=
  ⟨by decide, by decide⟩

/-- C6 (amended): after a successful cancel the row (when present) is
`cancelled` and a second cancel leaves the state unchanged; the second call
returns `false` only when the job is absent from the in-memory tracking
dict (the DB branch sees a terminal row), and returns `true` when the job
is still tracked in memory. -/
theorem C6_cancel_second_call (st st1 : CancelState)
    (h : cancelJob st = some (st1, true)) :
    (st1.dbRow = none ∨ st1.dbRow = some JobStatus.cancelled) ∧
    cancelJob st1 = some (st1, st1.mem.isSome) := by
  obtain ⟨mem, dbRow⟩ := st
  cases mem with
  | some m =>
    simp only [cancelJob, Option.some.injEq, Prod.mk.injEq] at h
    obtain ⟨hst, -⟩ := h
    subst hst
    cases dbRow with
    | none => exact ⟨Or.inl rfl, rfl⟩
    | some s => exact ⟨Or.inr rfl, rfl⟩
  | none =>
    cases dbRow with
    | none => simp [cancelJob] at h
    | some s =>
      by_cases ht : isTerminal s
      · simp [cancelJob, ht] at h
      · have hc : cancelJob ⟨none, some s⟩ =
            some (⟨none, some JobStatus.cancelled⟩, true) := by
          simp [cancelJob, ht]
        rw [hc] at h
        simp only [Option.some.injEq, Prod.mk.injEq, and_true] at h
        subst h
        exact ⟨Or.inr rfl, rfl⟩

/-- Witness for C6: after cancelling a job known only through its DB row,
the second cancel returns `false` and the row stays `cancelled`. -/
theorem C6_cancel_second_call_witness :
    ((⟨none, some .cancelled⟩ : CancelState).dbRow = none ∨
     (⟨none, some .cancelled⟩ : CancelState).dbRow = some JobStatus.cancelled) ∧
    cancelJob ⟨none, some .cancelled⟩ =
      some (⟨none, some .cancelled⟩, (⟨none, some .cancelled⟩ : CancelState).mem.isSome) :=
  C6_cancel_second_call ⟨none, some .pending⟩ ⟨none, some .cancelled⟩ (by decide)

/-! ## C7 -/

/-- C7 counterexample: in a three-step workflow where step 0 creates
`fastsurfer/` and step 1 creates `qsiprep/` under `native/`, step 2 receives
both directories — all directories currently under `native/` — and not only
the one newly created by step 1, so the input is not computed by diffing the
listing before and after the step. -/
theorem C7_step_inputs_cex :
    stepInputs ["/data/uploads/T1.nii.gz".data]
      [["fastsurfer".data], ["qsiprep".data], []] 2 =
      ["fastsurfer".data, "qsiprep".data] ∧
    (["fastsurfer".data, "qsiprep".data] : List (List Char)) ≠ ["qsiprep".data] :=
  ⟨by decide, by decide⟩

/-- C7 (amended): step `i+1` receives every directory present under
`native/` after step `i` (the accumulated creations of steps `0..i`, with
no before/after diff); only when `native/` contains no directory at all are
the previous inputs — hence the original input files — reused. -/
theorem C7_step_inputs_accumulate (orig : List (List Char))
    (created : List (List (List Char))) (i : Nat) :
    stepInputs orig created (i + 1) =
      if (created.take (i + 1)).flatten = [] then orig
      else (created.take (i + 1)).flatten := by
  induction i with
  | zero =>
    rw [stepInputs, stepInputs]
    unfold nextStepInputs
    by_cases h : (created.take 1).flatten = [] <;> simp [h]
  | succ n ih =>
    rw [stepInputs]
    unfold nextStepInputs
    by_cases h : (created.take (n + 1 + 1)).flatten = []
    · have hsub : (created.take (n + 1)).flatten = [] := by
        rw [List.flatten_eq_nil_iff] at h ⊢
        intro l hl
        refine h l ?_
        have : created.take (n + 1) = (created.take (n + 1 + 1)).take (n + 1) := by
          rw [List.take_take]
          congr 1
          omega
        rw [this] at hl
        exact List.take_subset _ _ hl
      simp [h, ih, hsub]
    · simp [h]

/-! ## Registry lemmas for C8 and C9 -/

theorem assocFind_eq_some_of_mem {α : Type} {k : List Char} {v : α}
    {l : List (List Char × α)} (hmem : (k, v) ∈ l)
    (hnd : (l.map Prod.fst).Nodup) : assocFind k l = some v := by
  induction l with
  | nil => simp at hmem
  | cons kv rest ih =>
    obtain ⟨k', v'⟩ := kv
    rw [assocFind]
    simp only [List.map_cons, List.nodup_cons] at hnd
    rcases List.mem_cons.mp hmem with heq | hmem'
    · injection heq with h1 h2
      subst h1; subst h2
      simp
    · have hk : k ≠ k' := by
        intro hkk
        subst hkk
        exact hnd.1 (List.mem_map_of_mem Prod.fst hmem')
      rw [if_neg hk]
      exact ih hmem' hnd.2

theorem mem_insertSorted {α : Type} (le : α → α → Bool) (x : α) (l : List α)
    (y : α) : y ∈ insertSorted le x l ↔ y = x ∨ y ∈ l := by
  induction l with
  | nil => simp [insertSorted]
  | cons z zs ih =>
    rw [insertSorted]
    by_cases h : le x z
    · simp only [if_pos h, List.mem_cons]
    · simp only [if_neg h, List.mem_cons, ih]
      tauto

theorem mem_sortByLe {α : Type} (le : α → α → Bool) (l : List α) (y : α) :
    y ∈ sortByLe le l ↔ y ∈ l := by
  induction l with
  | nil => simp [sortByLe]
  | cons z zs ih =>
    show y ∈ insertSorted le z (sortByLe le zs) ↔ _
    rw [mem_insertSorted, ih, List.mem_cons]

/-! ## C8 -/

/-- C8 counterexample: for a workflow whose recorded content hash differs
from the recomputed one while the version is unchanged, `verify_lockfile`
reports nothing and returns status ok — the workflow branch never compares
content hashes — so `content_changed` is not reported for workflows. -/
theorem C8_workflow_content_unchecked_cex :
    ((fun (y : List Char) => y) "yaml-old".data ≠ "different-hash".data) ∧
    verifyLockfile (fun (y : List Char) => y)
      { plugins := [],
        workflows := [("structural".data,
          { version := "1.0.0".data, stepUses := [], rawYaml := "yaml-old".data })] }
      { generatedAt := "t".data,
        plugins := [],
        workflows := [("structural".data,
          { version := "1.0.0".data, stepUses := [],
            contentHash := "different-hash".data })] } =
      { plugins := [], workflows := [], status := .ok } :=
  ⟨by decide, by decide⟩

/-- C8 (amended): `verify_lockfile` reports `missing`, `version_changed`
and `content_changed` for plugin entries, but for workflow entries it
reports only `missing` and `version_changed` — a changed workflow content
hash goes unreported — and any produced entry makes the status
`mismatch`. -/
theorem C8_verify_mismatch_kinds {Y : Type} (hash : Y → List Char)
    (reg : Registry Y) (L : Lockfile) :
    (∀ pid info, (pid, info) ∈ L.plugins → assocFind pid reg.plugins = none →
       ({ id := pid, issue := .missing, expected := none, actual := none } :
         ReportEntry) ∈ (verifyLockfile hash reg L).plugins) ∧
    (∀ pid info p, (pid, info) ∈ L.plugins → assocFind pid reg.plugins = some p →
       p.version ≠ info.version →
       ({ id := pid, issue := .versionChanged, expected := some info.version,
          actual := some p.version } : ReportEntry) ∈
         (verifyLockfile hash reg L).plugins) ∧
    (∀ pid info p, (pid, info) ∈ L.plugins → assocFind pid reg.plugins = some p →
       p.version = info.version → hash p.rawYaml ≠ info.contentHash →
       ({ id := pid, issue := .contentChanged, expected := some info.contentHash,
          actual := some (hash p.rawYaml) } : ReportEntry) ∈
         (verifyLockfile hash reg L).plugins) ∧
    (∀ wid info, (wid, info) ∈ L.workflows → assocFind wid reg.workflows = none →
       ({ id := wid, issue := .missing, expected := none, actual := none } :
         ReportEntry) ∈ (verifyLockfile hash reg L).workflows) ∧
    (∀ wid info w, (wid, info) ∈ L.workflows →
       assocFind wid reg.workflows = some w → w.version ≠ info.version →
       ({ id := wid, issue := .versionChanged, expected := some info.version,
          actual := some w.version } : ReportEntry) ∈
         (verifyLockfile hash reg L).workflows) ∧
    (∀ e ∈ (verifyLockfile hash reg L).workflows, e.issue ≠ .contentChanged) ∧
    ((verifyLockfile hash reg L).plugins ≠ [] ∨
       (verifyLockfile hash reg L).workflows ≠ [] →
       (verifyLockfile hash reg L).status = .mismatch) := by
  refine ⟨?_, ?_, ?_, ?_, ?_, ?_, ?_⟩
  · intro pid info hmem hfind
    exact List.mem_filterMap.mpr ⟨(pid, info), hmem, by simp [pluginCheck, hfind]⟩
  · intro pid info p hmem hfind hver
    exact List.mem_filterMap.mpr ⟨(pid, info), hmem, by simp [pluginCheck, hfind, hver]⟩
  · intro pid info p hmem hfind hver hhash
    exact List.mem_filterMap.mpr ⟨(pid, info), hmem,
      by simp [pluginCheck, hfind, hver, hhash]⟩
  · intro wid info hmem hfind
    exact List.mem_filterMap.mpr ⟨(wid, info), hmem, by simp [workflowCheck, hfind]⟩
  · intro wid info w hmem hfind hver
    exact List.mem_filterMap.mpr ⟨(wid, info), hmem,
      by simp [workflowCheck, hfind, hver]⟩
  · intro e he
    obtain ⟨kv, -, hck⟩ := List.mem_filterMap.mp he
    cases hfind : assocFind kv.1 reg.workflows with
    | none =>
      simp only [workflowCheck, hfind, Option.some.injEq] at hck
      subst hck
      simp
    | some w =>
      simp only [workflowCheck, hfind] at hck
      split at hck
      · simp only [Option.some.injEq] at hck
        subst hck
        simp
      · simp at hck
  · intro hne
    by_cases hc : L.plugins.filterMap (fun kv => pluginCheck hash reg kv.1 kv.2) = [] ∧
        L.workflows.filterMap (fun kv => workflowCheck reg kv.1 kv.2) = []
    · rcases hne with hne | hne
      · exact absurd hc.1 hne
      · exact absurd hc.2 hne
    · show (if L.plugins.filterMap (fun kv => pluginCheck hash reg kv.1 kv.2) = [] ∧
            L.workflows.filterMap (fun kv => workflowCheck reg kv.1 kv.2) = [] then
          VerifyStatus.ok else VerifyStatus.mismatch) = VerifyStatus.mismatch
      rw [if_neg hc]

/-- Witness for C8: a lockfile plugin entry absent from the registry is
reported as missing. -/
theorem C8_verify_mismatch_kinds_witness :
    ({ id := "p1".data, issue := .missing, expected := none, actual := none } :
      ReportEntry) ∈
      (verifyLockfile (fun (y : List Char) => y)
        ({ plugins := [], workflows := [] } : Registry (List Char))
        { generatedAt := "t".data,
          plugins := [("p1".data,
            { version := "1.0.0".data, containerImage := "img".data,
              contentHash := "h".data })],
          workflows := [] }).plugins :=
  (C8_verify_mismatch_kinds (fun (y : List Char) => y) _ _).1 "p1".data
    { version := "1.0.0".data, containerImage := "img".data, contentHash := "h".data }
    (by decide) (by decide)

/-! ## C9 -/

/-- C9: verifying a lockfile generated from the same unchanged registry
yields status ok with empty plugin and workflow mismatch lists; the content
hash is a fixed function of the canonicalised YAML, so it reproduces. -/
theorem C9_lockfile_round_trip {Y : Type} (hash : Y → List Char)
    (now : List Char) (reg : Registry Y)
    (hp : (reg.plugins.map Prod.fst).Nodup)
    (hw : (reg.workflows.map Prod.fst).Nodup) :
    verifyLockfile hash reg (generateLockfile hash now reg) =
      { plugins := [], workflows := [], status := .ok } := by
  have hps : ((generateLockfile hash now reg).plugins.filterMap
      (fun kv => pluginCheck hash reg kv.1 kv.2)) = [] := by
    rw [List.filterMap_eq_nil_iff]
    intro kv hkv
    simp only [generateLockfile, List.mem_map] at hkv
    obtain ⟨kv0, hkv0, rfl⟩ := hkv
    rw [mem_sortByLe] at hkv0
    have hfind : assocFind kv0.1 reg.plugins = some kv0.2 :=
      assocFind_eq_some_of_mem hkv0 hp
    simp [pluginCheck, hfind]
  have hws : ((generateLockfile hash now reg).workflows.filterMap
      (fun kv => workflowCheck reg kv.1 kv.2)) = [] := by
    rw [List.filterMap_eq_nil_iff]
    intro kv hkv
    simp only [generateLockfile, List.mem_map] at hkv
    obtain ⟨kv0, hkv0, rfl⟩ := hkv
    rw [mem_sortByLe] at hkv0
    have hfind : assocFind kv0.1 reg.workflows = some kv0.2 :=
      assocFind_eq_some_of_mem hkv0 hw
    simp [workflowCheck, hfind]
  unfold verifyLockfile
  rw [hps, hws]
  simp

/-- Witness for C9 on a one-plugin, one-workflow registry. -/
theorem C9_lockfile_round_trip_witness :
    verifyLockfile (fun (y : List Char) => y)
      { plugins := [("fastsurfer".data,
          { version := "1.0.0".data,
            containerImage := "deepmi/fastsurfer:latest".data,
            rawYaml := "yaml-a".data })],
        workflows := [("structural".data,
          { version := "2.0.0".data, stepUses := ["fastsurfer".data],
            rawYaml := "yaml-b".data })] }
      (generateLockfile (fun (y : List Char) => y) "2026-01-01T00:00:00Z".data
        { plugins := [("fastsurfer".data,
            { version := "1.0.0".data,
              containerImage := "deepmi/fastsurfer:latest".data,
              rawYaml := "yaml-a".data })],
          workflows := [("structural".data,
            { version := "2.0.0".data, stepUses := ["fastsurfer".data],
              rawYaml := "yaml-b".data })] }) =
      { plugins := [], workflows := [], status := .ok } :=
  C9_lockfile_round_trip _ _ _ (by decide) (by decide)

/-! ## C4 -/

/-- C4: the download operation serves a file only when the resolved target
is a proper descendant of the job's resolved output root (the root itself is
a directory, not a file); any `file_path` whose resolved path escapes the
root is answered with the 400 path-traversal rejection; and every path
reported by the file listing is a proper descendant of the output root. -/
theorem C4_results_paths_confined (fsExists fsIsFile : List (List Char) → Bool)
    (root : List (List Char)) (fp : PyPath)
    (entries : List (List (List Char) × Bool))
    (hroot : fsIsFile (normalizeComps root) = false)
    (hentries : ∀ e ∈ entries, e.1 ≠ []) :
    (∀ p, downloadFile fsExists fsIsFile root fp = .served p →
       normalizeComps root <+: p ∧ p ≠ normalizeComps root) ∧
    (¬ normalizeComps root <+: normalizeComps (joinPath root fp) →
       downloadFile fsExists fsIsFile root fp = .traversal400) ∧
    (∀ q ∈ listFiles root entries, root <+: q ∧ q ≠ root) := by
  refine ⟨?_, ?_, ?_⟩
  · intro p hp
    simp only [downloadFile] at hp
    split at hp
    · simp at hp
    · rename_i h1
      split at hp
      · simp at hp
      · split at hp
        · simp at hp
        · rename_i h3
          simp only [DownloadResult.served.injEq] at hp
          subst hp
          refine ⟨ List.isPrefixOf_iff_prefix.mp (not_not.mp h1), ?_⟩
          intro heq
          have h4 := not_not.mp h3
          rw [heq, hroot] at h4
          exact absurd h4 (by simp)
  · intro hnp
    simp only [downloadFile]
    split
    · rfl
    · rename_i hb
      exact absurd ( List.isPrefixOf_iff_prefix.mp (not_not.mp hb)) hnp
  · intro q hq
    simp only [listFiles, List.mem_map] at hq
    obtain ⟨e, he, rfl⟩ := hq
    have hne : e.1 ≠ [] := hentries e (List.mem_of_mem_filter he)
    refine ⟨List.prefix_append root e.1, ?_⟩
    intro hcontr
    have hlen := congrArg List.length hcontr
    rw [List.length_append] at hlen
    have : e.1.length = 0 := by omega
    exact hne (List.eq_nil_of_length_eq_zero this)

/-- Witness for C4: a `file_path` that climbs out of the output directory
with `..` components is rejected as path traversal. -/
theorem C4_results_paths_confined_witness :
    downloadFile (fun _ => true) (fun _ => false)
      ["data".data, "outputs".data, "job-1".data]
      { absolute := false,
        comps := ["..".data, "..".data, "secret.txt".data] } =
      DownloadResult.traversal400 :=
  (C4_results_paths_confined (fun _ => true) (fun _ => false)
      ["data".data, "outputs".data, "job-1".data]
      { absolute := false, comps := ["..".data, "..".data, "secret.txt".data] }
      [] (by decide) (by simp)).2.1 (by decide)

/-! ## C10 -/

/-- C10: `_sync_job_to_db` and `_update_progress` are total best-effort
operations — for every database behaviour (fetch raising, row missing, or
commit raising) they return normally and never propagate an exception, so
database failures cannot alter the executor's control flow. -/
theorem C10_db_sync_never_raises (fetch : Except (List Char) (Option JobRow))
    (commitOk : Bool) (status : List Char) (kw : SyncKwargs)
    (progress : Nat) (phaseLabel : List Char) :
    (∃ r, syncJobToDb fetch commitOk status kw = .ok r) ∧
    (∃ r, updateProgress fetch commitOk progress phaseLabel = .ok r) := by
  constructor
  · unfold syncJobToDb
    cases h : syncJobBody fetch commitOk status kw with
    | ok r => exact ⟨r, rfl⟩
    | error e => exact ⟨none, rfl⟩
  · unfold updateProgress
    cases h : updateProgressBody fetch commitOk progress phaseLabel with
    | ok r => exact ⟨r, rfl⟩
    | error e => exact ⟨none, rfl⟩

end NeuroInsight
